import Mathlib

/-!
Verification of the personal-expense-tracker server core.

This file gives a shallow embedding, in Lean, of the server-side core of the
expense tracker: the transaction ledger and its CSV export, the loan ledger
with its payment reconciliation, and the device-token access control.  Each
definition is a direct translation of the corresponding TypeScript function
(file and symbol named in its doc comment).  Conventions of the embedding:

* Currency amounts are modelled exactly, as integer counts of cents: every
  amount column of the store is a two-decimal fixed-point value
  (`DECIMAL(10,2)` in `supabase-setup.sql`, `NUMERIC(10,2)` in
  `loan-tables.sql`), so the JavaScript numbers the code adds, negates,
  clamps and compares are two-decimal values, in bijection with ℤ via
  multiplication by 100.
* Calendar dates and timestamps are modelled as natural numbers
  (the epoch value produced by `new Date(x).getTime()`); the rendering
  of a date cell is abstracted by `formatDateUS`, whose output no theorem
  constrains.
* A Supabase/Postgres table is modelled as a Lean list of row records.
  A store call that can fail at the infrastructure level takes an explicit
  fault flag (collected in `StoreFaults`); the no-error path uses `noFaults`.
* `async` functions that a caller awaits are modelled as plain functions.
  Where the source calls an `async` function WITHOUT awaiting it, the model
  keeps the returned promise as a `JsPromise` value, and the JavaScript
  truthiness of that object is modelled by `jsTruthy`.
-/

namespace ExpenseTracker

/-- Decides whether the character list `h` is an initial segment of `s`;
used to state "the CSV begins with the header row". -/
def charsLead : List Char → List Char → Bool
  | [], _ => true
  | _ :: _, [] => false
  | a :: as, b :: bs => a == b && charsLead as bs

/-- The string `s` begins with the string `h`. -/
def beginsWith (s h : String) : Prop := charsLead h.data s.data = true

instance (s h : String) : Decidable (beginsWith s h) := by
  unfold beginsWith; infer_instance

/-- Model of JavaScript `Number.prototype.toFixed(2)` applied to a
two-decimal currency value: render the amount of `cents` with exactly two
decimal places. -/
def toFixed2 (cents : ℤ) : String :=
  let sign := if cents < 0 then "-" else ""
  let m := cents.natAbs
  sign ++ toString (m / 100) ++ "." ++ (if m % 100 < 10 then "0" else "") ++ toString (m % 100)

/-- Abstract stand-in for `new Date(d).toLocaleDateString("en-US")`.
No theorem in this file constrains the text it produces. -/
def formatDateUS (d : Nat) : String := toString d

/-! ## Shared data model (`shared/schema.ts`) -/

/-- `type` field of a transaction: `z.enum(["income", "expense"])`. -/
inductive TxType where
  | income
  | expense
deriving DecidableEq, Repr

/-- A stored transaction (`transactionSchema`).  The `type` field is named
`ttype` because `type` is a Lean keyword. -/
structure Transaction where
  id : String
  ttype : TxType
  amount : ℤ
  category : String
  description : String
  date : Nat
  createdAt : Nat
deriving DecidableEq, Repr

/-- A transaction input accepted by `insertTransactionSchema`
(`amount` positive, `category` non-empty). -/
def insertTransactionValid (t : Transaction) : Prop :=
  0 < t.amount ∧ t.category ≠ ""

/-- The signed contribution of one transaction to a balance:
`type === "income" ? amount : -amount`. -/
def signedAmount (t : Transaction) : ℤ :=
  if t.ttype = .income then t.amount else -t.amount

/-- Sum of the signed amounts of a list of transactions. -/
def signedSum (l : List Transaction) : ℤ := (l.map signedAmount).sum

/-! ## Local CSV storage (`server/csv-storage.ts`, class `LocalCSVStorage`) -/

namespace LocalCSVStorage

/-- The comparator `(a, b) => new Date(a.date).getTime() - new Date(b.date).getTime()`
passed to `Array.prototype.sort`, as a relation on transactions. -/
def dateLe (a b : Transaction) : Prop := a.date ≤ b.date

instance : DecidableRel dateLe := fun a b => Nat.decLe a.date b.date

instance : IsTotal Transaction dateLe := ⟨fun a b => Nat.le_total a.date b.date⟩

instance : IsTrans Transaction dateLe := ⟨fun _ _ _ h h' => Nat.le_trans h h'⟩

/-- `[...transactions].sort((a, b) => new Date(a.date).getTime() - new Date(b.date).getTime())`:
a stable sort of the transactions, ascending by date. -/
def sortTransactionsByDate (l : List Transaction) : List Transaction :=
  List.insertionSort dateLe l

/-- One row of the bank-statement view (`BankStatementEntry` in
`server/csv-storage.ts`). -/
structure BankStatementEntry where
  date : String
  description : String
  withdrawals : String
  deposits : String
  balance : String
deriving DecidableEq, Repr

/-- The row built for transaction `t` when the running balance after `t`
is `bal` — the body of the `map` callback in `generateCSV` and
`getBankStatementEntries`. -/
def mkEntry (t : Transaction) (bal : ℤ) : BankStatementEntry :=
  { date := formatDateUS t.date
    description := if t.description = "" then t.category else t.description
    withdrawals := if t.ttype = .income then "" else toFixed2 t.amount
    deposits := if t.ttype = .income then toFixed2 t.amount else ""
    balance := toFixed2 bal }

/-- The `sortedTransactions.map(...)` loop of `generateCSV` /
`getBankStatementEntries`: emit one entry per transaction, threading the
mutable `runningBalance` (initially the first argument). -/
def bankStatementRows : ℤ → List Transaction → List BankStatementEntry
  | _, [] => []
  | bal, t :: ts =>
    let bal' := bal + (if t.ttype = .income then t.amount else -t.amount)
    mkEntry t bal' :: bankStatementRows bal' ts

/-- The row template
`` `${date},"${description}",${withdrawals},${deposits},${balance}` ``. -/
def csvRowString (e : BankStatementEntry) : String :=
  e.date ++ ",\"" ++ e.description ++ "\"," ++ e.withdrawals ++ "," ++ e.deposits ++ "," ++ e.balance

/-- The bank-statement CSV header row (with its trailing newline). -/
def csvHeader : String := "Date,Description,Withdrawals,Deposits,Balance\n"

/-- `LocalCSVStorage.generateCSV` (identical logic in
`VercelKVStorage.generateCSV` and `PostgresStorage.getCSVContent`):
sort ascending by date, accumulate a running balance, emit one CSV row per
transaction under the bank-statement header. -/
def generateCSV (transactions : List Transaction) : String :=
  csvHeader ++
    String.intercalate "\n"
      ((bankStatementRows 0 (sortTransactionsByDate transactions)).map csvRowString)

/-- `LocalCSVStorage.getBankStatementEntries`: the same rows as `generateCSV`,
returned as records. -/
def getBankStatementEntries (transactions : List Transaction) : List BankStatementEntry :=
  bankStatementRows 0 (sortTransactionsByDate transactions)

/-- `LocalCSVStorage.getCurrentBalance`: `reduce` of signed amounts over the
stored transactions, in stored order. -/
def getCurrentBalance (transactions : List Transaction) : ℤ :=
  transactions.foldl (fun balance t => balance + (if t.ttype = .income then t.amount else -t.amount)) 0

/-- `LocalCSVStorage.addTransaction`: append the new record (with its
generated id and createdAt) to the stored list. -/
def addTransaction (store : List Transaction) (t : Transaction) : List Transaction :=
  store ++ [t]

/-- `LocalCSVStorage.deleteTransaction`: filter out the id; if nothing was
removed return `false` and leave the store unchanged, else save the filtered
list and return `true`. -/
def deleteTransaction (store : List Transaction) (id : String) :
    List Transaction × Bool :=
  let filtered := store.filter (fun t => !(t.id == id))
  if filtered.length = store.length then (store, false) else (filtered, true)

end LocalCSVStorage

/-! ## Supabase transaction storage (`server/supabase-storage.ts`), the
backend of the `storage` object that `server/routes.ts` serves
(`storage.ts` → `DatabaseStorage` → `SupabaseStorage`). -/

namespace SupabaseStorage

/-- Ordering used by `getAllTransactions`: `.order('created_at', { ascending: false })`. -/
def createdAtDesc (a b : Transaction) : Prop := b.createdAt ≤ a.createdAt

instance : DecidableRel createdAtDesc := fun a b => Nat.decLe b.createdAt a.createdAt

instance : IsTotal Transaction createdAtDesc := ⟨fun a b => (Nat.le_total b.createdAt a.createdAt)⟩

instance : IsTrans Transaction createdAtDesc := ⟨fun _ _ _ h h' => Nat.le_trans h' h⟩

/-- `SupabaseStorage.getAllTransactions`: the stored rows, ordered by
`created_at` descending. -/
def getAllTransactions (table : List Transaction) : List Transaction :=
  List.insertionSort createdAtDesc table

/-- `(t.description || '').replace(/"/g, '""')`: double every double quote. -/
def escapeQuotes (s : String) : String :=
  ⟨s.data.foldr (fun c acc => if c = '"' then '"' :: '"' :: acc else c :: acc) []⟩

/-- The row template of `SupabaseStorage.getCSVContent`:
`` `${t.date},${t.type},${t.amount},${t.category},"${escaped}"` ``. -/
def csvRow (t : Transaction) : String :=
  toString t.date ++ "," ++ (if t.ttype = .income then "income" else "expense") ++ "," ++
    toString t.amount ++ "," ++ t.category ++ ",\"" ++ escapeQuotes t.description ++ "\""

/-- `SupabaseStorage.getCSVContent`: a plain dump of the transactions under
the header `Date,Type,Amount,Category,Description`, in `getAllTransactions`
order (`created_at` descending) with no running balance.  This is the CSV
served by `GET /api/transactions/csv` and `GET /api/transactions/download/csv`. -/
def getCSVContent (table : List Transaction) : String :=
  "Date,Type,Amount,Category,Description\n" ++
    String.intercalate "\n" ((getAllTransactions table).map csvRow)

/-- `SupabaseStorage.getCurrentBalance`: signed reduce over
`getAllTransactions`. -/
def getCurrentBalance (table : List Transaction) : ℤ :=
  (getAllTransactions table).foldl
    (fun balance t => if t.ttype = .income then balance + t.amount else balance - t.amount) 0

/-- `SupabaseStorage.deleteTransaction`: issue `delete().eq('id', id)`; throw
on a store error (`fault`), otherwise return `true` — with no check that any
row matched. -/
def deleteTransaction (fault : Bool) (table : List Transaction) (id : String) :
    Except String (List Transaction × Bool) :=
  if fault then .error "Failed to delete transaction"
  else .ok (table.filter (fun t => !(t.id == id)), true)

/-- The `DELETE /api/transactions/:id` handler of `server/routes.ts`:
`success` ↦ 200 `{success: true}`, `!success` ↦ 404, thrown error ↦ 500.
Returns the resulting table and the HTTP status code. -/
def deleteTransactionRoute (fault : Bool) (table : List Transaction) (id : String) :
    List Transaction × Nat :=
  match deleteTransaction fault table id with
  | .ok (table', true) => (table', 200)
  | .ok (table', false) => (table', 404)
  | .error _ => (table, 500)

end SupabaseStorage

/-! ## Device-token storage (`server/auth-storage.ts`, class `AuthStorage`,
table `device_tokens`) -/

/-- One row of the `device_tokens` table. -/
structure DeviceTokenRow where
  token : String
  deviceId : String
  deviceName : String
  userAgent : String
  createdAt : Nat
  lastSeen : Nat
  isActive : Bool
deriving DecidableEq, Repr

/-- The `device_tokens` table. -/
abbrev AuthDb := List DeviceTokenRow

namespace AuthStorage

/-- `AuthStorage.storeDeviceToken`: upsert keyed by `token` with
`is_active = true` and a fresh `last_seen`; on conflict the existing row's
payload columns are overwritten (`created_at` keeps its value), otherwise a
new row is inserted. -/
def storeDeviceToken (db : AuthDb) (token deviceId deviceName userAgent : String)
    (now : Nat) : AuthDb :=
  if db.any (fun r => r.token == token) then
    db.map (fun r =>
      if r.token == token then
        { token := token, deviceId := deviceId, deviceName := deviceName,
          userAgent := userAgent, createdAt := r.createdAt, lastSeen := now,
          isActive := true }
      else r)
  else
    db ++
      [{ token := token, deviceId := deviceId, deviceName := deviceName,
         userAgent := userAgent, createdAt := now, lastSeen := now,
         isActive := true }]

/-- `AuthStorage.validateDeviceToken`: the token is valid iff a row with that
token and `is_active = true` exists (`.eq('token', token).eq('is_active', true).single()`;
no matching row yields the PGRST116 error branch and `false`). -/
def validateDeviceToken (db : AuthDb) (token : String) : Bool :=
  db.any (fun r => r.token == token && r.isActive)

/-- `AuthStorage.revokeDevice`: set `is_active = false` on every row of the
device; returns `true` (the update reports an error only on store failure,
not when no row matched). -/
def revokeDevice (db : AuthDb) (deviceId : String) : AuthDb × Bool :=
  (db.map (fun r =>
    if r.deviceId == deviceId then { r with isActive := false } else r), true)

end AuthStorage

/-! ## Server auth layer (`server/auth.ts`) and the HTTP gate
(`server/routes.ts`, `requireAuth`) -/

/-- A JavaScript `Promise` object wrapping the value the async computation
resolves to. -/
structure JsPromise (α : Type) where
  val : α

/-- JavaScript truthiness of a `Promise` object: any object is truthy,
whatever it resolves to. -/
def jsTruthy {α : Type} (_ : JsPromise α) : Bool := true

/-- `validateDeviceToken` of `server/auth.ts`: an `async` function, so its
value at a call site that does not await it is a promise.  It resolves to
`false` for an empty token and otherwise to the database check (any thrown
store error also resolves to `false`; the fault-free path is modelled). -/
def validateDeviceTokenAsync (db : AuthDb) (token : String) : JsPromise Bool :=
  ⟨if token = "" then false else AuthStorage.validateDeviceToken db token⟩

/-- JavaScript `String.prototype.startsWith`, on the character lists. -/
def jsStartsWith (s h : String) : Bool := charsLead h.data s.data

/-- JavaScript `String.prototype.slice(n)` (drop the first `n` characters). -/
def jsSlice (s : String) (n : Nat) : String := ⟨s.data.drop n⟩

/-- `authHeader?.startsWith('Bearer ') ? authHeader.slice(7) : null`. -/
def bearerToken (authHeader : Option String) : Option String :=
  match authHeader with
  | none => none
  | some h => if jsStartsWith h "Bearer " then some (jsSlice h 7) else none

/-- Outcome of the `requireAuth` middleware: pass the request on to the
route handler, or answer with a status code and error message. -/
inductive AuthDecision where
  | proceed
  | reject (status : Nat) (msg : String)
deriving DecidableEq, Repr

/-- `requireAuth` (`server/routes.ts`): skip the gate for `/api/auth*`,
`/api/health` and `/debug`; reject with 401 when no Bearer token is present;
then test `!validateDeviceToken(token)`.  The source does NOT await the
async `validateDeviceToken`, so the value tested is the promise object
itself, which is always truthy — the model preserves that. -/
def requireAuth (db : AuthDb) (path : String) (authorization : Option String) :
    AuthDecision :=
  if jsStartsWith path "/api/auth" || path == "/api/health" || path == "/debug" then
    .proceed
  else
    match bearerToken authorization with
    | none => .reject 401 "No authentication token provided"
    | some token =>
      if !(jsTruthy (validateDeviceTokenAsync db token)) then
        .reject 401 "Invalid or expired token"
      else .proceed

/-- What an `/api` request reaches: `handled` means `next()` ran and the
route handler (hence the storage operation) was invoked. -/
inductive ApiOutcome where
  | handled
  | rejected (status : Nat)
deriving DecidableEq, Repr

/-- The `app.use('/api', requireAuth)` pipeline: the route handler runs
exactly when `requireAuth` calls `next()`. -/
def apiDispatch (db : AuthDb) (path : String) (authorization : Option String) :
    ApiOutcome :=
  match requireAuth db path authorization with
  | .proceed => .handled
  | .reject status _ => .rejected status

/-! ## Loan storage (`server/postgres-storage.ts`, class `LoanStorage`,
tables `loans` and `loan_payments` of `loan-tables.sql`) -/

/-- `type` field of a loan: `z.enum(["given", "taken"])`. -/
inductive LoanType where
  | given
  | taken
deriving DecidableEq, Repr

/-- `status` field of a loan: `z.enum(["active", "completed", "defaulted"])`. -/
inductive LoanStatus where
  | active
  | completed
  | defaulted
deriving DecidableEq, Repr

/-- `type` field of a loan payment: `z.enum(["payment", "interest"])`. -/
inductive PaymentType where
  | payment
  | interest
deriving DecidableEq, Repr

/-- One row of the `loans` table (`DatabaseLoan`).  The `type` field is named
`ltype` because `type` is a Lean keyword. -/
structure DatabaseLoan where
  id : String
  ltype : LoanType
  amount : ℤ
  remainingAmount : ℤ
  personName : String
  personContact : String
  description : String
  interestRate : ℤ
  dueDate : Option String
  status : LoanStatus
  createdAt : Nat
  completedAt : Option Nat
deriving DecidableEq, Repr

/-- One row of the `loan_payments` table (`DatabaseLoanPayment`).  The `type`
field is named `ptype` because `type` is a Lean keyword. -/
structure DatabaseLoanPayment where
  id : String
  loanId : String
  amount : ℤ
  ptype : PaymentType
  description : String
  paymentDate : String
  createdAt : Nat
deriving DecidableEq, Repr

/-- The loan-side database: the `loans` and `loan_payments` tables. -/
structure LoanDb where
  loans : List DatabaseLoan
  payments : List DatabaseLoanPayment
deriving DecidableEq, Repr

/-- A loan input after a successful `insertLoanSchema.parse` (defaults
applied, so `personContact`, `description`, `interestRate` and `status` are
always present).  The `type` field is named `ltype`. -/
structure InsertLoan where
  ltype : LoanType
  amount : ℤ
  remainingAmount : ℤ
  personName : String
  personContact : String
  description : String
  interestRate : ℤ
  dueDate : Option String
  status : LoanStatus
deriving DecidableEq, Repr

/-- The constraints `insertLoanSchema` checks on a loan input:
`amount` positive, `remainingAmount` at least 0, `personName` non-empty,
`interestRate` at least 0. -/
def insertLoanValid (d : InsertLoan) : Prop :=
  0 < d.amount ∧ 0 ≤ d.remainingAmount ∧ d.personName ≠ "" ∧ 0 ≤ d.interestRate

/-- A loan-payment input after a successful `insertLoanPaymentSchema.parse`.
The `type` field is named `ptype`. -/
structure InsertLoanPayment where
  loanId : String
  amount : ℤ
  ptype : PaymentType
  description : String
  paymentDate : String
deriving DecidableEq, Repr

/-- The constraint `insertLoanPaymentSchema` checks: `amount` positive. -/
def insertLoanPaymentValid (d : InsertLoanPayment) : Prop := 0 < d.amount

instance (d : InsertLoan) : Decidable (insertLoanValid d) := by
  unfold insertLoanValid; infer_instance

instance (d : InsertLoanPayment) : Decidable (insertLoanPaymentValid d) := by
  unfold insertLoanPaymentValid; infer_instance

instance exceptDecEq {α β : Type} [DecidableEq α] [DecidableEq β] :
    DecidableEq (Except α β)
  | .error a, .error b =>
    if h : a = b then isTrue (by rw [h]) else isFalse (fun hc => by cases hc; exact h rfl)
  | .error _, .ok _ => isFalse (fun hc => by cases hc)
  | .ok _, .error _ => isFalse (fun hc => by cases hc)
  | .ok a, .ok b =>
    if h : a = b then isTrue (by rw [h]) else isFalse (fun hc => by cases hc; exact h rfl)

/-- Infrastructure-failure flags for the store calls issued by `LoanStorage`;
a flag set to `true` makes the corresponding Supabase call report an error. -/
structure StoreFaults where
  insertPaymentFails : Bool
  fetchPaymentFails : Bool
  deletePaymentFails : Bool
  fetchLoanFails : Bool
  updateLoanFails : Bool
  deletePaymentsByLoanFails : Bool
  deleteLoanFails : Bool
deriving DecidableEq, Repr

/-- The fault-free store: every call succeeds. -/
def noFaults : StoreFaults := ⟨false, false, false, false, false, false, false⟩

namespace LoanStorage

/-- `LoanStorage.addLoan`: the stored `remaining_amount` is the caller's
`remainingAmount` when that is strictly positive, else the principal
`amount`; `completed_at` starts `null`.  Returns the new table state and the
inserted row. -/
def addLoan (st : LoanDb) (data : InsertLoan) (lid : String) (now : Nat) :
    LoanDb × DatabaseLoan :=
  let remainingAmount := if 0 < data.remainingAmount then data.remainingAmount else data.amount
  let loan : DatabaseLoan :=
    { id := lid, ltype := data.ltype, amount := data.amount,
      remainingAmount := remainingAmount, personName := data.personName,
      personContact := data.personContact, description := data.description,
      interestRate := data.interestRate, dueDate := data.dueDate,
      status := data.status, createdAt := now, completedAt := none }
  (⟨st.loans ++ [loan], st.payments⟩, loan)

/-- `LoanStorage.updateLoanRemainingAmount`: fetch the loan's
`remaining_amount` (on a fetch error or no matching row, log and RETURN with
no change); clamp the new amount at 0; mark the loan completed when the new
amount is 0, reactivate it when the old amount was 0 and the new one is
positive; issue the update (on an update error, log and return — the error
is not propagated). -/
def updateLoanRemainingAmount (f : StoreFaults) (st : LoanDb) (loanId : String)
    (amountChange : ℤ) (now : Nat) : LoanDb :=
  if f.fetchLoanFails then st
  else
    match st.loans.find? (fun l => l.id == loanId) with
    | none => st
    | some loanData =>
      let newRemainingAmount := max 0 (loanData.remainingAmount + amountChange)
      let applyUpdate : DatabaseLoan → DatabaseLoan :=
        if newRemainingAmount = 0 then
          fun l => { l with remainingAmount := newRemainingAmount,
                            status := .completed, completedAt := some now }
        else if loanData.remainingAmount = 0 ∧ 0 < newRemainingAmount then
          fun l => { l with remainingAmount := newRemainingAmount,
                            status := .active, completedAt := none }
        else
          fun l => { l with remainingAmount := newRemainingAmount }
      if f.updateLoanFails then st
      else ⟨st.loans.map (fun l => if l.id == loanId then applyUpdate l else l), st.payments⟩

/-- `LoanStorage.addLoanPayment`: insert the payment row (the insert errors
on an infrastructure fault, on a `loan_payments.loan_id` foreign-key
violation — no loan with that id — or on a duplicate primary key); then, for
a `payment`-kind payment, adjust the parent loan by `−amount`.  A failure
inside that adjustment is NOT propagated; the inserted payment is returned
as the success value regardless. -/
def addLoanPayment (f : StoreFaults) (st : LoanDb) (data : InsertLoanPayment)
    (pid : String) (now : Nat) : Except String (LoanDb × DatabaseLoanPayment) :=
  let payment : DatabaseLoanPayment :=
    { id := pid, loanId := data.loanId, amount := data.amount,
      ptype := data.ptype, description := data.description,
      paymentDate := data.paymentDate, createdAt := now }
  if f.insertPaymentFails || !(st.loans.any (fun l => l.id == data.loanId)) ||
      st.payments.any (fun p => p.id == pid) then
    .error "Failed to add loan payment"
  else
    let st1 : LoanDb := ⟨st.loans, st.payments ++ [payment]⟩
    let st2 :=
      if data.ptype = .payment then
        updateLoanRemainingAmount f st1 data.loanId (-data.amount) now
      else st1
    .ok (st2, payment)

/-- `LoanStorage.deleteLoanPayment`: fetch the payment (`.single()`, which
errors when the id matches no row), delete it, and for a `payment`-kind
payment reverse the adjustment by `+amount` on the parent loan.  A failure
inside the adjustment is NOT propagated; `true` is returned regardless. -/
def deleteLoanPayment (f : StoreFaults) (st : LoanDb) (pid : String) (now : Nat) :
    Except String (LoanDb × Bool) :=
  if f.fetchPaymentFails then .error "Failed to fetch loan payment"
  else
    match st.payments.find? (fun p => p.id == pid) with
    | none => .error "Failed to fetch loan payment"
    | some paymentData =>
      if f.deletePaymentFails then .error "Failed to delete loan payment"
      else
        let st1 : LoanDb := ⟨st.loans, st.payments.filter (fun p => !(p.id == pid))⟩
        let st2 :=
          if paymentData.ptype = .payment then
            updateLoanRemainingAmount f st1 paymentData.loanId paymentData.amount now
          else st1
        .ok (st2, true)

/-- `LoanStorage.deleteLoanPaymentsByLoanId`: delete every payment of the
loan; errors only on an infrastructure fault. -/
def deleteLoanPaymentsByLoanId (f : StoreFaults) (st : LoanDb) (loanId : String) :
    Except String LoanDb :=
  if f.deletePaymentsByLoanFails then .error "Failed to delete loan payments"
  else .ok ⟨st.loans, st.payments.filter (fun p => !(p.loanId == loanId))⟩

/-- `LoanStorage.deleteLoan`: first delete all payments of the loan, then
delete the loan row; `true` is returned whenever neither store call errors —
there is no check that a loan with this id existed. -/
def deleteLoan (f : StoreFaults) (st : LoanDb) (id : String) :
    Except String (LoanDb × Bool) :=
  match deleteLoanPaymentsByLoanId f st id with
  | .error e => .error e
  | .ok st1 =>
    if f.deleteLoanFails then .error "Failed to delete loan"
    else .ok (⟨st1.loans.filter (fun l => !(l.id == id)), st1.payments⟩, true)

end LoanStorage

/-- The `DELETE /api/loans/:id` handler of `server/routes.ts`:
`success` ↦ 200 `{success: true}`, `!success` ↦ 404 `Loan not found`,
thrown error ↦ 500.  Returns the resulting state and the HTTP status code. -/
def deleteLoanRoute (f : StoreFaults) (st : LoanDb) (id : String) : LoanDb × Nat :=
  match LoanStorage.deleteLoan f st id with
  | .ok (st', true) => (st', 200)
  | .ok (st', false) => (st', 404)
  | .error _ => (st, 500)

/-! ## Helper lemmas -/

theorem data_append (s t : String) : (s ++ t).data = s.data ++ t.data := by
  cases s; cases t; rfl

theorem charsLead_append (h : List Char) (t : List Char) : charsLead h (h ++ t) = true := by
  induction h with
  | nil => rfl
  | cons a as ih => simp [charsLead, ih]

theorem beginsWith_append (h t : String) : beginsWith (h ++ t) h := by
  unfold beginsWith
  rw [data_append]
  exact charsLead_append h.data t.data

theorem toFixed2_ne_empty (cents : ℤ) : toFixed2 cents ≠ "" := by
  intro h
  have hd : (toFixed2 cents).data = [] := by rw [h]
  have hmem : '.' ∈ (toFixed2 cents).data := by
    unfold toFixed2
    rw [data_append, data_append, data_append, data_append]
    simp
  rw [hd] at hmem
  exact absurd hmem (List.not_mem_nil _)

theorem getLast?_cons_ne {α : Type} (a : α) (l : List α) (h : l ≠ []) :
    (a :: l).getLast? = l.getLast? := by
  cases l with
  | nil => exact absurd rfl h
  | cons b m => exact List.getLast?_cons_cons

theorem signedSum_cons (t : Transaction) (l : List Transaction) :
    signedSum (t :: l) = signedAmount t + signedSum l := by
  simp [signedSum]

namespace LocalCSVStorage

theorem bankStatementRows_get? (l : List Transaction) :
    ∀ (bal : ℤ) (i : Nat),
      (bankStatementRows bal l).get? i =
        (l.get? i).map (fun t => mkEntry t (bal + signedSum (l.take (i + 1)))) := by
  induction l with
  | nil => intro bal i; simp [bankStatementRows]
  | cons t ts ih =>
    intro bal i
    cases i with
    | zero =>
      simp [bankStatementRows, signedSum_cons, signedSum, signedAmount]
    | succ j =>
      simp only [bankStatementRows, List.get?_cons_succ, List.take_succ_cons, signedSum_cons, ih]
      cases h : ts.get? j with
      | none => simp
      | some u =>
        simp [signedAmount, add_assoc]

theorem bankStatementRows_mem (l : List Transaction) :
    ∀ (bal : ℤ) (e : BankStatementEntry), e ∈ bankStatementRows bal l →
      ∃ t b, t ∈ l ∧ e = mkEntry t b := by
  induction l with
  | nil => intro bal e he; simp [bankStatementRows] at he
  | cons t ts ih =>
    intro bal e he
    simp only [bankStatementRows, List.mem_cons] at he
    rcases he with he | he
    · exact ⟨t, _, List.mem_cons_self t ts, he⟩
    · obtain ⟨u, b, hu, hb⟩ := ih _ e he
      exact ⟨u, b, List.mem_cons_of_mem t hu, hb⟩

theorem bankStatementRows_getLast? (l : List Transaction) :
    ∀ (bal : ℤ), l ≠ [] →
      ∃ e, (bankStatementRows bal l).getLast? = some e ∧
        e.balance = toFixed2 (bal + signedSum l) := by
  induction l with
  | nil => intro bal h; exact absurd rfl h
  | cons t ts ih =>
    intro bal _
    cases ts with
    | nil =>
      refine ⟨mkEntry t (bal + signedAmount t), ?_, ?_⟩
      · simp [bankStatementRows, signedAmount]
      · simp [mkEntry, signedSum_cons, signedSum]
    | cons u us =>
      obtain ⟨e, he, hbal⟩ := ih (bal + signedAmount t) (by simp)
      refine ⟨e, ?_, ?_⟩
      · have hne : bankStatementRows (bal + signedAmount t) (u :: us) ≠ [] := by
          simp [bankStatementRows]
        show (mkEntry t (bal + signedAmount t) ::
            bankStatementRows (bal + signedAmount t) (u :: us)).getLast? = some e
        rw [getLast?_cons_ne _ _ hne]
        exact he
      · rw [hbal]
        congr 1
        simp [signedSum_cons, add_assoc]

theorem getCurrentBalance_eq_signedSum (l : List Transaction) :
    getCurrentBalance l = signedSum l := by
  have key : ∀ (l : List Transaction) (b : ℤ),
      l.foldl (fun balance t => balance + (if t.ttype = .income then t.amount else -t.amount)) b =
        b + signedSum l := by
    intro l
    induction l with
    | nil => intro b; simp [signedSum]
    | cons t ts ih => intro b; simp [signedSum_cons, ih, signedAmount, add_assoc]
  simpa [signedSum] using key l 0

theorem signedSum_sortTransactionsByDate (l : List Transaction) :
    signedSum (sortTransactionsByDate l) = signedSum l :=
  ((List.perm_insertionSort dateLe l).map signedAmount).sum_eq

end LocalCSVStorage

/-! ## Loan reconciliation: payment sums, operation sequences, invariant -/

/-- Sum of the amounts of the `payment`-kind payments currently recorded for
loan `L`. -/
def paymentKindSum (L : String) (ps : List DatabaseLoanPayment) : ℤ :=
  (ps.map (fun p => if p.loanId = L ∧ p.ptype = .payment then p.amount else 0)).sum

theorem paymentKindSum_nil (L : String) : paymentKindSum L [] = 0 := rfl

theorem paymentKindSum_append_single (L : String) (ps : List DatabaseLoanPayment)
    (p : DatabaseLoanPayment) :
    paymentKindSum L (ps ++ [p]) =
      paymentKindSum L ps + (if p.loanId = L ∧ p.ptype = .payment then p.amount else 0) := by
  simp [paymentKindSum]

theorem filter_id_ne_eq_self (ps : List DatabaseLoanPayment) (pid : String)
    (h : ∀ p ∈ ps, p.id ≠ pid) :
    ps.filter (fun p => !(p.id == pid)) = ps := by
  refine List.filter_eq_self.mpr (fun p hp => ?_)
  simp [h p hp]

theorem paymentKindSum_filter_id (L : String) (ps : List DatabaseLoanPayment)
    (p : DatabaseLoanPayment) (hmem : p ∈ ps)
    (hnd : (ps.map (fun q => q.id)).Nodup) :
    paymentKindSum L (ps.filter (fun q => !(q.id == p.id))) =
      paymentKindSum L ps - (if p.loanId = L ∧ p.ptype = .payment then p.amount else 0) := by
  induction ps with
  | nil => simp at hmem
  | cons q qs ih =>
    simp only [List.map_cons, List.nodup_cons] at hnd
    obtain ⟨hq, hnd'⟩ := hnd
    rcases List.mem_cons.mp hmem with rfl | hmem'
    · have hqs : ∀ r ∈ qs, r.id ≠ p.id := by
        intro r hr hre
        exact hq (hre ▸ List.mem_map_of_mem (fun x => x.id) hr)
      simp only [List.filter_cons, beq_self_eq_true, Bool.not_true, if_neg, Bool.false_eq_true,
        not_false_iff, reduceIte]
      rw [filter_id_ne_eq_self qs p.id hqs]
      simp [paymentKindSum]
    · have hqp : q.id ≠ p.id := by
        intro hre
        exact hq (hre ▸ List.mem_map_of_mem (fun x => x.id) hmem')
      have : (q.id == p.id) = false := by simp [hqp]
      simp only [List.filter_cons, this, Bool.not_false, if_pos, reduceIte]
      have hrec := ih hmem' hnd'
      simp [paymentKindSum] at hrec ⊢
      rw [hrec]
      ring

/-- The row produced by `updateLoanRemainingAmount` for a loan row it fetched
and updated: remaining amount clamped at 0, completed when the new amount is
0, reactivated when the old amount was 0 and the new one is positive. -/
def updatedLoan (loan : DatabaseLoan) (amountChange : ℤ) (now : Nat) : DatabaseLoan :=
  let newRemainingAmount := max 0 (loan.remainingAmount + amountChange)
  if newRemainingAmount = 0 then
    { loan with remainingAmount := newRemainingAmount,
                status := .completed, completedAt := some now }
  else if loan.remainingAmount = 0 ∧ 0 < newRemainingAmount then
    { loan with remainingAmount := newRemainingAmount,
                status := .active, completedAt := none }
  else
    { loan with remainingAmount := newRemainingAmount }

/-- The payment row `addLoanPayment` builds from its input. -/
def mkPayment (d : InsertLoanPayment) (pid : String) (now : Nat) : DatabaseLoanPayment :=
  { id := pid, loanId := d.loanId, amount := d.amount, ptype := d.ptype,
    description := d.description, paymentDate := d.paymentDate, createdAt := now }

theorem updateLoanRemainingAmount_single (f : StoreFaults) (loan : DatabaseLoan)
    (ps : List DatabaseLoanPayment) (c : ℤ) (now : Nat)
    (hf1 : f.fetchLoanFails = false) (hf2 : f.updateLoanFails = false) :
    LoanStorage.updateLoanRemainingAmount f ⟨[loan], ps⟩ loan.id c now =
      ⟨[updatedLoan loan c now], ps⟩ := by
  simp only [LoanStorage.updateLoanRemainingAmount, hf1, hf2, Bool.false_eq_true, if_neg,
    not_false_iff, List.find?, beq_self_eq_true, List.map, ite_apply, updatedLoan,
    reduceIte]

/-- `updateLoanRemainingAmount` silently leaves the state unchanged when its
loan fetch or its loan update reports a store error. -/
theorem updateLoanRemainingAmount_fault (f : StoreFaults) (st : LoanDb)
    (loanId : String) (c : ℤ) (now : Nat)
    (h : f.fetchLoanFails = true ∨ f.updateLoanFails = true) :
    LoanStorage.updateLoanRemainingAmount f st loanId c now = st := by
  unfold LoanStorage.updateLoanRemainingAmount
  rcases h with h | h
  · simp [h]
  · cases hf : f.fetchLoanFails
    · simp only [hf, Bool.false_eq_true, if_neg, not_false_iff, reduceIte]
      cases hfind : st.loans.find? (fun l => l.id == loanId) <;> simp [h]
    · simp [hf]

theorem addLoanPayment_error_no_loan (f : StoreFaults) (st : LoanDb)
    (d : InsertLoanPayment) (pid : String) (now : Nat)
    (h : st.loans.any (fun l => l.id == d.loanId) = false) :
    LoanStorage.addLoanPayment f st d pid now = .error "Failed to add loan payment" := by
  simp [LoanStorage.addLoanPayment, h]

theorem addLoanPayment_error_dup_id (f : StoreFaults) (st : LoanDb)
    (d : InsertLoanPayment) (pid : String) (now : Nat)
    (h : st.payments.any (fun p => p.id == pid) = true) :
    LoanStorage.addLoanPayment f st d pid now = .error "Failed to add loan payment" := by
  simp [LoanStorage.addLoanPayment, h]

theorem addLoanPayment_single (loan : DatabaseLoan) (ps : List DatabaseLoanPayment)
    (d : InsertLoanPayment) (pid : String) (now : Nat)
    (hid : d.loanId = loan.id)
    (hfresh : ps.any (fun p => p.id == pid) = false) :
    LoanStorage.addLoanPayment noFaults ⟨[loan], ps⟩ d pid now =
      .ok ((if d.ptype = .payment then
              (⟨[updatedLoan loan (-d.amount) now], ps ++ [mkPayment d pid now]⟩ : LoanDb)
            else ⟨[loan], ps ++ [mkPayment d pid now]⟩),
           mkPayment d pid now) := by
  simp only [LoanStorage.addLoanPayment, noFaults, List.any_cons, List.any_nil, hid,
    beq_self_eq_true, Bool.or_false, Bool.not_true, Bool.false_or, hfresh, Bool.false_eq_true,
    if_neg, not_false_iff, reduceIte]
  cases hdp : d.ptype
  · simp only [hdp, reduceIte, mkPayment, hid]
    rw [updateLoanRemainingAmount_single] <;> rfl
  · simp [hdp, mkPayment, hid]

theorem deleteLoanPayment_error_not_found (f : StoreFaults) (st : LoanDb)
    (pid : String) (now : Nat)
    (h : st.payments.find? (fun p => p.id == pid) = none) :
    LoanStorage.deleteLoanPayment f st pid now =
      .error "Failed to fetch loan payment" := by
  unfold LoanStorage.deleteLoanPayment
  cases hf : f.fetchPaymentFails <;> simp [h]

theorem deleteLoanPayment_single (loan : DatabaseLoan) (ps : List DatabaseLoanPayment)
    (pid : String) (now : Nat) (p : DatabaseLoanPayment)
    (hfind : ps.find? (fun q => q.id == pid) = some p)
    (hpl : p.loanId = loan.id) :
    LoanStorage.deleteLoanPayment noFaults ⟨[loan], ps⟩ pid now =
      .ok ((if p.ptype = .payment then
              (⟨[updatedLoan loan p.amount now], ps.filter (fun q => !(q.id == pid))⟩ : LoanDb)
            else ⟨[loan], ps.filter (fun q => !(q.id == pid))⟩), true) := by
  simp only [LoanStorage.deleteLoanPayment, noFaults, Bool.false_eq_true, if_neg,
    not_false_iff, hfind, reduceIte]
  cases hdp : p.ptype
  · simp only [hdp, reduceIte, hpl]
    rw [updateLoanRemainingAmount_single] <;> rfl
  · simp [hdp]

/-- One successful `addLoanPayment` or `deleteLoanPayment` call touching the
loan with id `L` (on the fault-free store).  An `addLoanPayment` step is
constrained to the schema (`amount` positive) and, for `payment`-kind
payments, to not overpay the loan (no clamping at the 0 floor). -/
inductive LoanOpStep (L : String) : LoanDb → LoanDb → Prop where
  | addPayment (st st' : LoanDb) (d : InsertLoanPayment) (pid : String) (now : Nat)
      (pay : DatabaseLoanPayment)
      (hloan : d.loanId = L)
      (hamt : 0 < d.amount)
      (hnoclamp : d.ptype = .payment → ∀ l ∈ st.loans, d.amount ≤ l.remainingAmount)
      (hok : LoanStorage.addLoanPayment noFaults st d pid now = .ok (st', pay)) :
      LoanOpStep L st st'
  | delPayment (st st' : LoanDb) (pid : String) (now : Nat)
      (hok : LoanStorage.deleteLoanPayment noFaults st pid now = .ok (st', true)) :
      LoanOpStep L st st'

/-- The reconciliation invariant for the (single-loan) database of loan `L`
with principal `P`: the loan's row stores `P` minus the recorded
payment-kind amounts, never negative, with `status` equal to `completed`
exactly at 0; payment ids are distinct (primary key) and every payment
belongs to `L` with a positive amount. -/
def ReconcileInv (L : String) (P : ℤ) (st : LoanDb) : Prop :=
  ∃ loan : DatabaseLoan,
    st.loans = [loan] ∧ loan.id = L ∧ loan.amount = P ∧
    loan.remainingAmount = P - paymentKindSum L st.payments ∧
    0 ≤ loan.remainingAmount ∧
    loan.status = (if loan.remainingAmount = 0 then LoanStatus.completed else LoanStatus.active) ∧
    (st.payments.map (fun p => p.id)).Nodup ∧
    (∀ p ∈ st.payments, p.loanId = L ∧ 0 < p.amount)

theorem reconcileInv_step {L : String} {P : ℤ} {st st' : LoanDb}
    (hstep : LoanOpStep L st st') (hinv : ReconcileInv L P st) :
    ReconcileInv L P st' := by
  obtain ⟨loan, hloans, hid, hP, hrem, hnn, hstat, hnd, hall⟩ := hinv
  obtain ⟨loans, ps⟩ := st
  simp only at hloans hrem hnd hall
  subst hloans
  cases hstep with
  | addPayment d pid now pay hloan hamt hnoclamp hok =>
    have hid' : d.loanId = loan.id := hloan.trans hid.symm
    by_cases hfresh : (ps.any fun p => p.id == pid) = false
    · rw [addLoanPayment_single loan ps d pid now hid' hfresh] at hok
      simp only [Except.ok.injEq, Prod.mk.injEq] at hok
      obtain ⟨hst', _⟩ := hok
      have hfreshAll : ∀ p ∈ ps, p.id ≠ pid := by
        intro p hp
        rw [List.any_eq_false] at hfresh
        simpa using hfresh p hp
      have hnd' : ((ps ++ [mkPayment d pid now]).map (fun p => p.id)).Nodup := by
        simp only [List.map_append, List.map_cons, List.map_nil, mkPayment]
        rw [List.nodup_append]
        refine ⟨hnd, List.nodup_singleton pid, ?_⟩
        intro x hx
        simp only [List.mem_singleton]
        obtain ⟨q, hq, rfl⟩ := List.mem_map.mp hx
        exact hfreshAll q hq
      have hall' : ∀ p ∈ ps ++ [mkPayment d pid now], p.loanId = L ∧ 0 < p.amount := by
        intro p hp
        rcases List.mem_append.mp hp with hp | hp
        · exact hall p hp
        · rw [List.mem_singleton.mp hp]
          exact ⟨hloan, hamt⟩
      cases hdp : d.ptype with
      | payment =>
        rw [hdp] at hst'
        simp only [reduceIte] at hst'
        subst hst'
        have ha : d.amount ≤ loan.remainingAmount := hnoclamp hdp loan (by simp)
        have hsum : paymentKindSum L (ps ++ [mkPayment d pid now]) =
            paymentKindSum L ps + d.amount := by
          rw [paymentKindSum_append_single]
          simp [mkPayment, hloan, hdp]
        have hxpos : 0 ≤ loan.remainingAmount + -d.amount := by omega
        have hmax : max 0 (loan.remainingAmount + -d.amount) =
            loan.remainingAmount - d.amount := by
          rw [max_eq_right hxpos]; ring
        refine ⟨updatedLoan loan (-d.amount) now, rfl, ?_⟩
        by_cases hz : loan.remainingAmount - d.amount = 0
        · have hrec : updatedLoan loan (-d.amount) now =
              { loan with remainingAmount := loan.remainingAmount - d.amount,
                          status := .completed, completedAt := some now } := by
            unfold updatedLoan
            rw [hmax, if_pos hz]
          rw [hrec]
          refine ⟨hid, hP, ?_, ?_, ?_, hnd', hall'⟩
          · show loan.remainingAmount - d.amount =
              P - paymentKindSum L (ps ++ [mkPayment d pid now])
            rw [hsum]
            omega
          · show (0 : ℤ) ≤ loan.remainingAmount - d.amount
            omega
          · show LoanStatus.completed =
              if loan.remainingAmount - d.amount = 0 then LoanStatus.completed
              else LoanStatus.active
            rw [if_pos hz]
        · have hremne : loan.remainingAmount ≠ 0 := by omega
          have hrec : updatedLoan loan (-d.amount) now =
              { loan with remainingAmount := loan.remainingAmount - d.amount } := by
            unfold updatedLoan
            rw [hmax, if_neg hz, if_neg (by rintro ⟨h0, _⟩; omega)]
          rw [hrec]
          refine ⟨hid, hP, ?_, ?_, ?_, hnd', hall'⟩
          · show loan.remainingAmount - d.amount =
              P - paymentKindSum L (ps ++ [mkPayment d pid now])
            rw [hsum]
            omega
          · show (0 : ℤ) ≤ loan.remainingAmount - d.amount
            omega
          · show loan.status =
              if loan.remainingAmount - d.amount = 0 then LoanStatus.completed
              else LoanStatus.active
            rw [hstat, if_neg hremne, if_neg hz]
      | interest =>
        rw [hdp] at hst'
        subst hst'
        have hsum : paymentKindSum L (ps ++ [mkPayment d pid now]) = paymentKindSum L ps := by
          rw [paymentKindSum_append_single]
          simp [mkPayment, hdp]
        exact ⟨loan, rfl, hid, hP, by simpa [hsum] using hrem, hnn, hstat, hnd', hall'⟩
    · have hf2 : (ps.any fun p => p.id == pid) = true := by
        revert hfresh
        cases ps.any fun p => p.id == pid <;> simp
      rw [addLoanPayment_error_dup_id noFaults ⟨[loan], ps⟩ d pid now hf2] at hok
      exact absurd hok (by simp)
  | delPayment pid now hok =>
    cases hfind : ps.find? (fun q => q.id == pid) with
    | none =>
      rw [deleteLoanPayment_error_not_found noFaults ⟨[loan], ps⟩ pid now hfind] at hok
      exact absurd hok (by simp)
    | some p =>
      have hpmem := List.mem_of_find?_eq_some hfind
      have hpid : p.id = pid := by
        have := List.find?_some hfind
        simpa using this
      obtain ⟨hploan, hpamt⟩ := hall p hpmem
      have hpl : p.loanId = loan.id := hploan.trans hid.symm
      rw [deleteLoanPayment_single loan ps pid now p hfind hpl] at hok
      simp only [Except.ok.injEq, Prod.mk.injEq] at hok
      obtain ⟨hst', _⟩ := hok
      have hSf := paymentKindSum_filter_id L ps p hpmem hnd
      rw [hpid] at hSf
      have hnd' : (((ps.filter (fun q => !(q.id == pid))).map (fun p => p.id))).Nodup :=
        hnd.sublist (List.Sublist.map (fun p => p.id) (List.filter_sublist ps))
      have hall' : ∀ q ∈ ps.filter (fun q => !(q.id == pid)), q.loanId = L ∧ 0 < q.amount :=
        fun q hq => hall q (List.mem_of_mem_filter hq)
      cases hdp : p.ptype with
      | payment =>
        rw [hdp] at hst'
        simp only [reduceIte] at hst'
        subst hst'
        have hsum : paymentKindSum L (ps.filter (fun q => !(q.id == pid))) =
            paymentKindSum L ps - p.amount := by
          rw [hSf]
          simp [hploan, hdp]
        have hxpos : 0 < loan.remainingAmount + p.amount := by omega
        have hmax : max 0 (loan.remainingAmount + p.amount) =
            loan.remainingAmount + p.amount :=
          max_eq_right (by omega)
        refine ⟨updatedLoan loan p.amount now, rfl, ?_⟩
        by_cases h0 : loan.remainingAmount = 0
        · have hrec : updatedLoan loan p.amount now =
              { loan with remainingAmount := loan.remainingAmount + p.amount,
                          status := .active, completedAt := none } := by
            unfold updatedLoan
            rw [hmax, if_neg (by omega), if_pos ⟨h0, hxpos⟩]
          rw [hrec]
          refine ⟨hid, hP, ?_, ?_, ?_, hnd', hall'⟩
          · show loan.remainingAmount + p.amount =
              P - paymentKindSum L (ps.filter (fun q => !(q.id == pid)))
            rw [hsum]
            omega
          · show (0 : ℤ) ≤ loan.remainingAmount + p.amount
            omega
          · show LoanStatus.active =
              if loan.remainingAmount + p.amount = 0 then LoanStatus.completed
              else LoanStatus.active
            rw [if_neg (by omega)]
        · have hrec : updatedLoan loan p.amount now =
              { loan with remainingAmount := loan.remainingAmount + p.amount } := by
            unfold updatedLoan
            rw [hmax, if_neg (by omega), if_neg (by rintro ⟨hc, _⟩; exact h0 hc)]
          rw [hrec]
          refine ⟨hid, hP, ?_, ?_, ?_, hnd', hall'⟩
          · show loan.remainingAmount + p.amount =
              P - paymentKindSum L (ps.filter (fun q => !(q.id == pid)))
            rw [hsum]
            omega
          · show (0 : ℤ) ≤ loan.remainingAmount + p.amount
            omega
          · show loan.status =
              if loan.remainingAmount + p.amount = 0 then LoanStatus.completed
              else LoanStatus.active
            rw [hstat, if_neg h0, if_neg (by omega)]
      | interest =>
        rw [hdp] at hst'
        subst hst'
        have hsum : paymentKindSum L (ps.filter (fun q => !(q.id == pid))) =
            paymentKindSum L ps := by
          rw [hSf]
          simp [hdp]
        exact ⟨loan, rfl, hid, hP, by simpa [hsum] using hrem, hnn, hstat, hnd', hall'⟩

/-! ## Device-token lemmas -/

theorem storeDeviceToken_validates (db : AuthDb) (token devId name ua : String) (now : Nat) :
    AuthStorage.validateDeviceToken
      (AuthStorage.storeDeviceToken db token devId name ua now) token = true := by
  unfold AuthStorage.storeDeviceToken AuthStorage.validateDeviceToken
  by_cases h : db.any (fun r => r.token == token) = true
  · rw [if_pos h]
    rw [List.any_eq_true] at h ⊢
    obtain ⟨r, hr, hrt⟩ := h
    exact ⟨_, List.mem_map_of_mem _ hr, by simp [hrt]⟩
  · rw [if_neg h]
    rw [List.any_eq_true]
    exact ⟨_, List.mem_append_right _ (List.mem_singleton_self _), by simp⟩

theorem mem_storeDeviceToken_token (db : AuthDb) (token devId name ua : String) (now : Nat)
    (r : DeviceTokenRow) (hr : r ∈ AuthStorage.storeDeviceToken db token devId name ua now)
    (ht : r.token = token) : r.deviceId = devId := by
  unfold AuthStorage.storeDeviceToken at hr
  by_cases h : db.any (fun x => x.token == token) = true
  · rw [if_pos h] at hr
    obtain ⟨x, hx, hrx⟩ := List.mem_map.mp hr
    by_cases hxt : (x.token == token) = true
    · rw [if_pos hxt] at hrx
      rw [← hrx]
    · rw [if_neg hxt] at hrx
      rw [← hrx] at ht
      exact absurd (by simp [ht]) hxt
  · rw [if_neg h] at hr
    rcases List.mem_append.mp hr with hx | hx
    · have hfalse : db.any (fun x => x.token == token) = false := by
        revert h
        cases db.any (fun x => x.token == token) <;> simp
      rw [List.any_eq_false] at hfalse
      exact absurd (by simp [ht]) (hfalse r hx)
    · rw [List.mem_singleton.mp hx]

theorem revokeDevice_invalidates (db : AuthDb) (token devId name ua : String) (now : Nat) :
    AuthStorage.validateDeviceToken
      ((AuthStorage.revokeDevice
        (AuthStorage.storeDeviceToken db token devId name ua now) devId).1) token = false := by
  unfold AuthStorage.revokeDevice AuthStorage.validateDeviceToken
  rw [List.any_eq_false]
  intro x hx
  obtain ⟨y, hy, hxy⟩ := List.mem_map.mp hx
  by_cases hyt : y.token = token
  · have hdev : y.deviceId = devId :=
      mem_storeDeviceToken_token db token devId name ua now y hy hyt
    rw [← hxy]
    simp [hdev]
  · by_cases hyd : (y.deviceId == devId) = true
    · rw [if_pos hyd] at hxy
      rw [← hxy]
      simp
    · rw [if_neg hyd] at hxy
      rw [← hxy]
      simp [hyt]

/-! ## Claim-scenario data -/

/-- State component of a loan-storage result (initial state on error). -/
def exceptState (r : Except String (LoanDb × DatabaseLoanPayment)) : LoanDb :=
  match r with
  | .ok (st, _) => st
  | .error _ => ⟨[], []⟩

/-- Whether a loan-storage call reported success. -/
def isOkB {α : Type} (r : Except String α) : Bool :=
  match r with
  | .ok _ => true
  | .error _ => false

/-- Fault pattern for the reconciliation-failure scenarios: the
`UPDATE loans` call inside `updateLoanRemainingAmount` errors, every other
store call succeeds. -/
def updFaults : StoreFaults := ⟨false, false, false, false, true, false, false⟩

/-! ## Claims -/

/-- Claim C1 (code bug, evaluated at the failing input): `requireAuth` never
rejects a request that carries a Bearer token, however invalid.  The
middleware is synchronous and tests `!validateDeviceToken(token)` without
awaiting the `async` `validateDeviceToken` of `server/auth.ts`; the value
tested is the returned `Promise` object, which is always truthy, so the
`Invalid or expired token` 401 branch is unreachable and the storage handler
runs.  For a request to `/api/transactions` with `Bearer bogus-token` and an
empty `device_tokens` table, the token is invalid yet the request is
handled; only the missing-token branch still rejects with 401. -/
theorem C1_requireAuth_invalid_token_accepted :
    requireAuth [] "/api/transactions" (some "Bearer bogus-token") = AuthDecision.proceed ∧
    apiDispatch [] "/api/transactions" (some "Bearer bogus-token") = ApiOutcome.handled ∧
    (validateDeviceTokenAsync [] "bogus-token").val = false ∧
    AuthStorage.validateDeviceToken [] "bogus-token" = false ∧
    requireAuth [] "/api/transactions" none =
      AuthDecision.reject 401 "No authentication token provided" ∧
    apiDispatch [] "/api/transactions" none = ApiOutcome.rejected 401 := by
  decide

/-- Claim C8: a device token stored by the master-password flow
(`storeDeviceToken`, `is_active = true`) validates successfully via
`validateDeviceToken` immediately after issuance, and fails validation
immediately after `revokeDevice` is called with the owning device id —
for every prior state of the `device_tokens` table. -/
theorem C8_token_lifecycle (db : AuthDb) (token deviceId deviceName userAgent : String)
    (now : Nat) :
    AuthStorage.validateDeviceToken
      (AuthStorage.storeDeviceToken db token deviceId deviceName userAgent now) token = true ∧
    AuthStorage.validateDeviceToken
      ((AuthStorage.revokeDevice
        (AuthStorage.storeDeviceToken db token deviceId deviceName userAgent now)
        deviceId).1) token = false :=
  ⟨storeDeviceToken_validates db token deviceId deviceName userAgent now,
   revokeDevice_invalidates db token deviceId deviceName userAgent now⟩

/-- Claim C10 (implicit): `deleteLoan` returns `true` whenever the
underlying store calls do not error — it performs no existence check before
the cascade delete of the loan's payments and the loan-row delete, so for
EVERY state and EVERY id (a nonexistent one included) the call reports
success, the `DELETE /api/loans/:id` handler answers 200, and its 404
`Loan not found` branch is unreachable. -/
theorem C10_deleteLoan_reports_success_always (st : LoanDb) (id : String) :
    LoanStorage.deleteLoan noFaults st id =
      .ok (⟨st.loans.filter (fun l => !(l.id == id)),
            st.payments.filter (fun p => !(p.loanId == id))⟩, true) ∧
    (deleteLoanRoute noFaults st id).2 = 200 := by
  constructor
  · simp [LoanStorage.deleteLoan, LoanStorage.deleteLoanPaymentsByLoanId, noFaults]
  · simp [deleteLoanRoute, LoanStorage.deleteLoan, LoanStorage.deleteLoanPaymentsByLoanId,
      noFaults]

/-- Claim C6 counterexample: on the storage object served by the routes
(`DatabaseStorage` → `SupabaseStorage`), deleting an id that names no stored
transaction reports SUCCESS, not not-found: with an empty table,
`deleteTransaction "tx-1"` returns `true` and the HTTP handler answers 200,
never the claimed 404. -/
theorem C6_counterexample :
    SupabaseStorage.deleteTransaction false [] "tx-1" = .ok ([], true) ∧
    SupabaseStorage.deleteTransactionRoute false [] "tx-1" = ([], 200) := by
  decide

/-- Claim C6 as amended: the served (Supabase-backed) `deleteTransaction`
returns `true` for every id whenever the store call does not error, so the
404 branch of `DELETE /api/transactions/:id` is unreachable; the
`LocalCSVStorage` (and identical KV/Postgres) implementation does satisfy
the claim: deleting an absent id returns not-found and leaves the store
unchanged, and after adding a record with a fresh id, the first delete
succeeds and restores the prior store while the second returns not-found. -/
theorem C6_delete_notfound_semantics (store : List Transaction) (t : Transaction)
    (hfresh : ∀ u ∈ store, u.id ≠ t.id) :
    (∀ (table : List Transaction) (id : String),
      SupabaseStorage.deleteTransaction false table id =
        .ok (table.filter (fun u => !(u.id == id)), true)) ∧
    LocalCSVStorage.deleteTransaction store t.id = (store, false) ∧
    LocalCSVStorage.deleteTransaction (LocalCSVStorage.addTransaction store t) t.id =
      (store, true) := by
  have hfilter : store.filter (fun u => !(u.id == t.id)) = store :=
    List.filter_eq_self.mpr (fun u hu => by simp [hfresh u hu])
  refine ⟨fun table id => rfl, ?_, ?_⟩
  · simp [LocalCSVStorage.deleteTransaction, hfilter]
  · simp [LocalCSVStorage.deleteTransaction, LocalCSVStorage.addTransaction,
      List.filter_append, hfilter]

/-- Claim C6 witness: the amended theorem applied to the empty store and a
concrete transaction. -/
theorem C6_delete_notfound_semantics_witness :
    (∀ u ∈ ([] : List Transaction), u.id ≠ "t1") ∧
    (LocalCSVStorage.deleteTransaction [] "t1" = ([], false) ∧
      LocalCSVStorage.deleteTransaction
        (LocalCSVStorage.addTransaction [] ⟨"t1", .income, 100000, "salary", "", 3, 1⟩)
        "t1" = ([], true)) :=
  ⟨by simp,
   ⟨(C6_delete_notfound_semantics [] ⟨"t1", .income, 100000, "salary", "", 3, 1⟩
      (by simp)).2.1,
    (C6_delete_notfound_semantics [] ⟨"t1", .income, 100000, "salary", "", 3, 1⟩
      (by simp)).2.2⟩⟩

/-- Claim C7 counterexample: the schema does not cap the `remainingAmount`
override by the principal and `addLoan` stores any strictly positive
override as is: the schema-valid input with `amount` 5000.00 and
`remainingAmount` 6000.00 is stored with `remainingAmount` 6000.00, which
violates the claimed `remainingAmount ≤ principal` bound at creation. -/
theorem C7_counterexample :
    insertLoanValid ⟨.given, 500000, 600000, "Jane", "", "", 0, none, .active⟩ ∧
    (LoanStorage.addLoan ⟨[], []⟩
        ⟨.given, 500000, 600000, "Jane", "", "", 0, none, .active⟩ "L1" 0).2.remainingAmount
      = 600000 ∧
    ¬ ((LoanStorage.addLoan ⟨[], []⟩
        ⟨.given, 500000, 600000, "Jane", "", "", 0, none, .active⟩ "L1" 0).2.remainingAmount
      ≤ (LoanStorage.addLoan ⟨[], []⟩
        ⟨.given, 500000, 600000, "Jane", "", "", 0, none, .active⟩ "L1" 0).2.amount) := by
  decide

/-- Claim C7 as amended: for every schema-valid loan input, the loan stored
by `addLoan` has `remainingAmount` equal to the principal unless the caller
supplies a strictly positive `remainingAmount` override, in which case the
override is stored as is; the stored `remainingAmount` is always strictly
positive (hence at least 0), but NO upper bound by the principal is
enforced. -/
theorem C7_addLoan_override_semantics (st : LoanDb) (d : InsertLoan) (lid : String)
    (now : Nat) (hv : insertLoanValid d) :
    (¬ 0 < d.remainingAmount →
      (LoanStorage.addLoan st d lid now).2.remainingAmount = d.amount) ∧
    (0 < d.remainingAmount →
      (LoanStorage.addLoan st d lid now).2.remainingAmount = d.remainingAmount) ∧
    0 < (LoanStorage.addLoan st d lid now).2.remainingAmount ∧
    (LoanStorage.addLoan st d lid now).2.amount = d.amount ∧
    (LoanStorage.addLoan st d lid now).2.status = d.status ∧
    (LoanStorage.addLoan st d lid now).1.loans =
      st.loans ++ [(LoanStorage.addLoan st d lid now).2] := by
  obtain ⟨hamt, hrem, -, -⟩ := hv
  refine ⟨?_, ?_, ?_, rfl, rfl, rfl⟩
  · intro h
    show (if 0 < d.remainingAmount then d.remainingAmount else d.amount) = d.amount
    rw [if_neg h]
  · intro h
    show (if 0 < d.remainingAmount then d.remainingAmount else d.amount) = d.remainingAmount
    rw [if_pos h]
  · show 0 < (if 0 < d.remainingAmount then d.remainingAmount else d.amount)
    by_cases h : 0 < d.remainingAmount
    · rw [if_pos h]; exact h
    · rw [if_neg h]; exact hamt

/-- Claim C7 witness: the amended theorem applied to a concrete input with
no positive override (`remainingAmount` 0): the stored remaining amount is
the principal. -/
theorem C7_addLoan_override_semantics_witness :
    insertLoanValid ⟨.given, 500000, 0, "Jane", "", "", 0, none, .active⟩ ∧
    (LoanStorage.addLoan ⟨[], []⟩
        ⟨.given, 500000, 0, "Jane", "", "", 0, none, .active⟩ "L1" 0).2.remainingAmount
      = 500000 :=
  ⟨by decide,
   (C7_addLoan_override_semantics ⟨[], []⟩
      ⟨.given, 500000, 0, "Jane", "", "", 0, none, .active⟩ "L1" 0 (by decide)).1
      (by decide)⟩

/-- Claim C5 counterexample: a failed reconciliation adjustment IS silently
swallowed.  With the loan present and the `UPDATE loans` call failing
(`updFaults`), `addLoanPayment` still reports success, returning the
inserted payment, while the loan row is left unadjusted — the fault-free run
of the same call would have reduced `remaining_amount` from 5000.00 to
3000.00. -/
theorem C5_counterexample :
    LoanStorage.addLoanPayment updFaults
        ⟨[⟨"L1", .given, 500000, 500000, "John", "", "", 0, none, .active, 0, none⟩], []⟩
        ⟨"L1", 200000, .payment, "", "2025-03-01"⟩ "p1" 1 =
      .ok (⟨[⟨"L1", .given, 500000, 500000, "John", "", "", 0, none, .active, 0, none⟩],
            [mkPayment ⟨"L1", 200000, .payment, "", "2025-03-01"⟩ "p1" 1]⟩,
           mkPayment ⟨"L1", 200000, .payment, "", "2025-03-01"⟩ "p1" 1) ∧
    LoanStorage.addLoanPayment noFaults
        ⟨[⟨"L1", .given, 500000, 500000, "John", "", "", 0, none, .active, 0, none⟩], []⟩
        ⟨"L1", 200000, .payment, "", "2025-03-01"⟩ "p1" 1 =
      .ok (⟨[⟨"L1", .given, 500000, 300000, "John", "", "", 0, none, .active, 0, none⟩],
            [mkPayment ⟨"L1", 200000, .payment, "", "2025-03-01"⟩ "p1" 1]⟩,
           mkPayment ⟨"L1", 200000, .payment, "", "2025-03-01"⟩ "p1" 1) := by
  constructor <;> rfl

/-- Claim C5 as amended: `addLoanPayment` fails when its `loanId` references
no existing loan (the `loan_payments.loan_id` foreign key rejects the
insert); but when the payment-kind reconciliation adjustment of the parent
loan fails (the loan-row update errors), `addLoanPayment` still reports
success with the payment inserted and the loan rows untouched, and
`deleteLoanPayment` likewise still reports success with the payment deleted
— the failed adjustment is swallowed, contrary to the claim. -/
theorem C5_adjustment_failure_swallowed :
    (∀ (f : StoreFaults) (st : LoanDb) (d : InsertLoanPayment) (pid : String) (now : Nat),
      st.loans.any (fun l => l.id == d.loanId) = false →
      LoanStorage.addLoanPayment f st d pid now = .error "Failed to add loan payment") ∧
    (∀ (st : LoanDb) (d : InsertLoanPayment) (pid : String) (now : Nat),
      st.loans.any (fun l => l.id == d.loanId) = true →
      st.payments.any (fun p => p.id == pid) = false →
      LoanStorage.addLoanPayment updFaults st d pid now =
        .ok (⟨st.loans, st.payments ++ [mkPayment d pid now]⟩, mkPayment d pid now)) ∧
    (∀ (st : LoanDb) (pid : String) (now : Nat) (p : DatabaseLoanPayment),
      st.payments.find? (fun q => q.id == pid) = some p →
      LoanStorage.deleteLoanPayment updFaults st pid now =
        .ok (⟨st.loans, st.payments.filter (fun q => !(q.id == pid))⟩, true)) := by
  refine ⟨addLoanPayment_error_no_loan, ?_, ?_⟩
  · intro st d pid now hany hfresh
    simp only [LoanStorage.addLoanPayment, updFaults, hany, hfresh, Bool.not_true,
      Bool.false_or, Bool.or_false, Bool.false_eq_true, if_neg, not_false_iff, reduceIte]
    cases hdp : d.ptype
    · rw [if_pos rfl, updateLoanRemainingAmount_fault _ _ d.loanId (-d.amount) now (Or.inr rfl)]
      simp [mkPayment, hdp]
    · rw [if_neg (fun hc => PaymentType.noConfusion hc)]
      simp [mkPayment, hdp]
  · intro st pid now p hfind
    simp only [LoanStorage.deleteLoanPayment, updFaults, hfind, Bool.false_eq_true, if_neg,
      not_false_iff, reduceIte]
    cases hdp : p.ptype
    · rw [if_pos rfl, updateLoanRemainingAmount_fault _ _ p.loanId p.amount now (Or.inr rfl)]
    · rw [if_neg (fun hc => PaymentType.noConfusion hc)]

/-- Claim C5 witness: the amended theorem applied to concrete inputs: the
no-loan insert errors, and the fault-injected add reports success with the
loan row unadjusted. -/
theorem C5_adjustment_failure_swallowed_witness :
    (((⟨[], []⟩ : LoanDb).loans.any
        (fun l => l.id == ("L9" : String)) = false) ∧
      LoanStorage.addLoanPayment noFaults ⟨[], []⟩ ⟨"L9", 100, .payment, "", "d"⟩ "p9" 0 =
        .error "Failed to add loan payment") ∧
    LoanStorage.addLoanPayment updFaults
        ⟨[⟨"L1", .given, 500000, 500000, "John", "", "", 0, none, .active, 0, none⟩], []⟩
        ⟨"L1", 200000, .payment, "", "2025-03-01"⟩ "p1" 1 =
      .ok (⟨[⟨"L1", .given, 500000, 500000, "John", "", "", 0, none, .active, 0, none⟩],
            [mkPayment ⟨"L1", 200000, .payment, "", "2025-03-01"⟩ "p1" 1]⟩,
           mkPayment ⟨"L1", 200000, .payment, "", "2025-03-01"⟩ "p1" 1) :=
  ⟨⟨rfl, C5_adjustment_failure_swallowed.1 noFaults ⟨[], []⟩ ⟨"L9", 100, .payment, "", "d"⟩
      "p9" 0 rfl⟩,
   C5_adjustment_failure_swallowed.2.1
     ⟨[⟨"L1", .given, 500000, 500000, "John", "", "", 0, none, .active, 0, none⟩], []⟩
     ⟨"L1", 200000, .payment, "", "2025-03-01"⟩ "p1" 1 (by decide) (by decide)⟩

/-! ### Claim C4 scenario states: principal 5000.00; pay 2000.00; pay
3000.00; delete the second payment. -/

def c4Insert : InsertLoan := ⟨.given, 500000, 0, "John Doe", "", "", 0, none, .active⟩

def c4St0 : LoanDb := (LoanStorage.addLoan ⟨[], []⟩ c4Insert "loan-1" 0).1

def c4Res1 : Except String (LoanDb × DatabaseLoanPayment) :=
  LoanStorage.addLoanPayment noFaults c4St0 ⟨"loan-1", 200000, .payment, "", "2025-03-01"⟩
    "pay-1" 1

def c4St1 : LoanDb := exceptState c4Res1

def c4Res2 : Except String (LoanDb × DatabaseLoanPayment) :=
  LoanStorage.addLoanPayment noFaults c4St1 ⟨"loan-1", 300000, .payment, "", "2025-04-01"⟩
    "pay-2" 2

def c4St2 : LoanDb := exceptState c4Res2

def c4Res3 : Except String (LoanDb × Bool) :=
  LoanStorage.deleteLoanPayment noFaults c4St2 "pay-2" 3

def c4St3 : LoanDb :=
  match c4Res3 with
  | .ok (st, _) => st
  | .error _ => ⟨[], []⟩

/-- Claim C4: for every existing loan, `addLoanPayment` with kind `payment`
and amount `a` decreases the loan's `remainingAmount` by `a` floored at 0,
and sets `status = completed` stamping `completedAt` when the result is 0;
`deleteLoanPayment` of a `payment`-kind payment adds its amount back, and
when the `remainingAmount` was 0 before the reversal and becomes positive,
sets the status back to `active` and clears `completedAt`.  In particular
the spec's scenario holds: principal 5000.00; pay 2000.00 → remaining
3000.00, active; pay 3000.00 → remaining 0, completed (stamped); delete the
second payment → remaining 3000.00, active, `completedAt` cleared. -/
theorem C4_payment_reconciliation_transitions :
    (∀ (loan : DatabaseLoan) (ps : List DatabaseLoanPayment) (d : InsertLoanPayment)
        (pid : String) (now : Nat),
      d.loanId = loan.id → d.ptype = .payment →
      ps.any (fun p => p.id == pid) = false →
      ∃ l', LoanStorage.addLoanPayment noFaults ⟨[loan], ps⟩ d pid now =
          .ok (⟨[l'], ps ++ [mkPayment d pid now]⟩, mkPayment d pid now) ∧
        l'.remainingAmount = max 0 (loan.remainingAmount - d.amount) ∧
        (l'.remainingAmount = 0 → l'.status = .completed ∧ l'.completedAt = some now)) ∧
    (∀ (loan : DatabaseLoan) (ps : List DatabaseLoanPayment) (pid : String) (now : Nat)
        (p : DatabaseLoanPayment),
      ps.find? (fun q => q.id == pid) = some p → p.ptype = .payment →
      p.loanId = loan.id →
      ∃ l', LoanStorage.deleteLoanPayment noFaults ⟨[loan], ps⟩ pid now =
          .ok (⟨[l'], ps.filter (fun q => !(q.id == pid))⟩, true) ∧
        l'.remainingAmount = max 0 (loan.remainingAmount + p.amount) ∧
        (loan.remainingAmount = 0 → 0 < p.amount →
          l'.status = .active ∧ l'.completedAt = none)) ∧
    ((c4St0.loans.map fun l => (l.remainingAmount, l.status, l.completedAt)) =
        [(500000, .active, none)] ∧
      isOkB c4Res1 = true ∧
      (c4St1.loans.map fun l => (l.remainingAmount, l.status, l.completedAt)) =
        [(300000, .active, none)] ∧
      isOkB c4Res2 = true ∧
      (c4St2.loans.map fun l => (l.remainingAmount, l.status, l.completedAt)) =
        [(0, .completed, some 2)] ∧
      c4Res3 = .ok (c4St3, true) ∧
      (c4St3.loans.map fun l => (l.remainingAmount, l.status, l.completedAt)) =
        [(300000, .active, none)]) := by
  refine ⟨?_, ?_, by decide⟩
  · intro loan ps d pid now hid hdp hfresh
    refine ⟨updatedLoan loan (-d.amount) now, ?_, ?_, ?_⟩
    · rw [addLoanPayment_single loan ps d pid now hid hfresh, if_pos hdp]
    · show (updatedLoan loan (-d.amount) now).remainingAmount =
        max 0 (loan.remainingAmount - d.amount)
      unfold updatedLoan
      rw [show loan.remainingAmount + -d.amount = loan.remainingAmount - d.amount by ring]
      by_cases hz : max 0 (loan.remainingAmount - d.amount) = 0
      · rw [if_pos hz]
      · rw [if_neg hz]
        by_cases hc : loan.remainingAmount = 0 ∧ 0 < max 0 (loan.remainingAmount - d.amount)
        · rw [if_pos hc]
        · rw [if_neg hc]
    · intro hz0
      unfold updatedLoan at hz0 ⊢
      rw [show loan.remainingAmount + -d.amount = loan.remainingAmount - d.amount by ring]
        at hz0 ⊢
      by_cases hz : max 0 (loan.remainingAmount - d.amount) = 0
      · rw [if_pos hz]
        exact ⟨rfl, rfl⟩
      · rw [if_neg hz] at hz0 ⊢
        by_cases hc : loan.remainingAmount = 0 ∧ 0 < max 0 (loan.remainingAmount - d.amount)
        · rw [if_pos hc] at hz0
          exact absurd hz0 hz
        · rw [if_neg hc] at hz0
          exact absurd hz0 hz
  · intro loan ps pid now p hfind hdp hpl
    refine ⟨updatedLoan loan p.amount now, ?_, ?_, ?_⟩
    · rw [deleteLoanPayment_single loan ps pid now p hfind hpl, if_pos hdp]
    · show (updatedLoan loan p.amount now).remainingAmount =
        max 0 (loan.remainingAmount + p.amount)
      unfold updatedLoan
      by_cases hz : max 0 (loan.remainingAmount + p.amount) = 0
      · rw [if_pos hz]
      · rw [if_neg hz]
        by_cases hc : loan.remainingAmount = 0 ∧ 0 < max 0 (loan.remainingAmount + p.amount)
        · rw [if_pos hc]
        · rw [if_neg hc]
    · intro h0 hpos
      have hx : max 0 (loan.remainingAmount + p.amount) = p.amount := by
        rw [h0, zero_add]
        exact max_eq_right (by omega)
      unfold updatedLoan
      rw [hx, if_neg (by omega), if_pos ⟨h0, hpos⟩]
      exact ⟨rfl, rfl⟩

/-- Claim C4 witness: the add and delete parts of the theorem applied to a
concrete loan: paying 2000.00 on a 5000.00 loan leaves 3000.00; deleting a
5000.00 payment from a completed loan with remaining 0 restores 5000.00,
status `active` and clears `completedAt`. -/
theorem C4_payment_reconciliation_transitions_witness :
    (∃ l', LoanStorage.addLoanPayment noFaults
        ⟨[⟨"L1", .given, 500000, 500000, "J", "", "", 0, none, .active, 0, none⟩], []⟩
        ⟨"L1", 200000, .payment, "", "d"⟩ "p1" 1 =
        .ok (⟨[l'], [] ++ [mkPayment ⟨"L1", 200000, .payment, "", "d"⟩ "p1" 1]⟩,
             mkPayment ⟨"L1", 200000, .payment, "", "d"⟩ "p1" 1) ∧
      l'.remainingAmount = max 0 ((500000 : ℤ) - 200000) ∧
      (l'.remainingAmount = 0 → l'.status = .completed ∧ l'.completedAt = some 1)) ∧
    (∃ l', LoanStorage.deleteLoanPayment noFaults
        ⟨[⟨"L1", .given, 500000, 0, "J", "", "", 0, none, .completed, 0, some 2⟩],
         [⟨"p2", "L1", 500000, .payment, "", "d", 2⟩]⟩ "p2" 3 =
        .ok (⟨[l'], ([⟨"p2", "L1", 500000, .payment, "", "d", 2⟩] :
              List DatabaseLoanPayment).filter (fun q => !(q.id == "p2"))⟩, true) ∧
      l'.remainingAmount = max 0 ((0 : ℤ) + 500000) ∧
      ((0 : ℤ) = 0 → (0 : ℤ) < 500000 →
        l'.status = .active ∧ l'.completedAt = none)) :=
  ⟨C4_payment_reconciliation_transitions.1
     ⟨"L1", .given, 500000, 500000, "J", "", "", 0, none, .active, 0, none⟩ []
     ⟨"L1", 200000, .payment, "", "d"⟩ "p1" 1 rfl rfl (by decide),
   C4_payment_reconciliation_transitions.2.1
     ⟨"L1", .given, 500000, 0, "J", "", "", 0, none, .completed, 0, some 2⟩
     [⟨"p2", "L1", 500000, .payment, "", "d", 2⟩] "p2" 3
     ⟨"p2", "L1", 500000, .payment, "", "d", 2⟩ rfl rfl rfl⟩

/-! ### Claim C3 counterexample states: principal 100.00, overpay 150.00,
then delete that payment. -/

def c3Loan : DatabaseLoan := ⟨"L1", .given, 10000, 10000, "John", "", "", 0, none, .active, 0, none⟩

def c3St0 : LoanDb := ⟨[c3Loan], []⟩

def c3Pay : InsertLoanPayment := ⟨"L1", 15000, .payment, "", "2025-01-01"⟩

def c3St1 : LoanDb := exceptState (LoanStorage.addLoanPayment noFaults c3St0 c3Pay "p1" 1)

def c3St2 : LoanDb :=
  match LoanStorage.deleteLoanPayment noFaults c3St1 "p1" 2 with
  | .ok (st, _) => st
  | .error _ => ⟨[], []⟩

/-- Claim C3 counterexample: the invariant
`remainingAmount = max(0, principal − Σ payment-kind amounts)` fails after
an overpayment is deleted, because the 0-floor loses the overshoot.  Loan
with principal 100.00 created with `remainingAmount = principal`; add a
schema-valid payment of 150.00 (clamped to remaining 0); delete it: the
stored `remainingAmount` is 150.00, while the claimed value is
`max(0, 100.00 − 0) = 100.00`. -/
theorem C3_counterexample :
    c3Loan.remainingAmount = c3Loan.amount ∧ c3Loan.status = .active ∧
    insertLoanPaymentValid c3Pay ∧
    isOkB (LoanStorage.addLoanPayment noFaults c3St0 c3Pay "p1" 1) = true ∧
    LoanStorage.deleteLoanPayment noFaults c3St1 "p1" 2 = .ok (c3St2, true) ∧
    c3St2.payments = [] ∧
    (c3St2.loans.map fun l => l.remainingAmount) = [15000] ∧
    max 0 (c3Loan.amount - paymentKindSum "L1" c3St2.payments) = 10000 ∧
    (c3St2.loans.map fun l => l.remainingAmount) ≠
      [max 0 (c3Loan.amount - paymentKindSum "L1" c3St2.payments)] := by
  decide

/-- Claim C3 as amended: for every loan created with
`remainingAmount = principal` (`status = active`, positive principal), and
after every finite sequence of successful `addLoanPayment` /
`deleteLoanPayment` operations touching it IN WHICH NO payment-kind add
overpays the loan (each such add's amount is at most the loan's current
remaining amount, so the 0-floor clamp never engages), the stored
`remainingAmount` equals `max(0, principal − Σ payment-kind amounts
currently recorded)`, and the status is `completed` exactly when the
remaining amount is 0 and `active` otherwise. -/
theorem C3_reconciliation_invariant (L : String) (P : ℤ) (loan0 : DatabaseLoan)
    (st : LoanDb) (hid : loan0.id = L) (hamt : loan0.amount = P)
    (hrem : loan0.remainingAmount = P) (hstat : loan0.status = .active) (hP : 0 < P)
    (hreach : Relation.ReflTransGen (LoanOpStep L) ⟨[loan0], []⟩ st) :
    ∃ loan, st.loans = [loan] ∧
      loan.remainingAmount = max 0 (P - paymentKindSum L st.payments) ∧
      (loan.status = .completed ↔ loan.remainingAmount = 0) ∧
      (loan.status = .active ↔ 0 < loan.remainingAmount) := by
  have hinv : ReconcileInv L P st := by
    induction hreach with
    | refl =>
      refine ⟨loan0, rfl, hid, hamt, ?_, by omega, ?_, by simp, by simp⟩
      · rw [paymentKindSum_nil]
        omega
      · rw [hstat, if_neg (by omega)]
    | tail _ hstep ih => exact reconcileInv_step hstep ih
  obtain ⟨loan, hl, _, _, hrem', hnn', hst', _, _⟩ := hinv
  refine ⟨loan, hl, ?_, ?_, ?_⟩
  · rw [hrem', max_eq_right (by omega)]
  · by_cases hz : loan.remainingAmount = 0 <;> simp [hst', hz]
  · by_cases hz : loan.remainingAmount = 0
    · simp [hst', hz]
    · rw [hst', if_neg hz]
      constructor
      · intro _
        omega
      · intro _
        rfl

/-! ### Claim C3 witness data: one no-clamp payment step. -/

def c3wLoan : DatabaseLoan := ⟨"L1", .given, 500000, 500000, "John", "", "", 0, none, .active, 0, none⟩

def c3wPay : InsertLoanPayment := ⟨"L1", 200000, .payment, "", "2025-03-01"⟩

def c3wSt1 : LoanDb :=
  exceptState (LoanStorage.addLoanPayment noFaults ⟨[c3wLoan], []⟩ c3wPay "p1" 1)

/-- Claim C3 witness: the amended theorem applied to a concrete loan of
5000.00 after one non-overpaying 2000.00 payment step. -/
theorem C3_reconciliation_invariant_witness :
    (c3wLoan.id = "L1" ∧ c3wLoan.amount = 500000 ∧ c3wLoan.remainingAmount = 500000 ∧
      c3wLoan.status = .active ∧ (0 : ℤ) < 500000 ∧
      Relation.ReflTransGen (LoanOpStep "L1") ⟨[c3wLoan], []⟩ c3wSt1) ∧
    (∃ loan, c3wSt1.loans = [loan] ∧
      loan.remainingAmount = max 0 (500000 - paymentKindSum "L1" c3wSt1.payments) ∧
      (loan.status = .completed ↔ loan.remainingAmount = 0) ∧
      (loan.status = .active ↔ 0 < loan.remainingAmount)) := by
  have hstep : LoanOpStep "L1" ⟨[c3wLoan], []⟩ c3wSt1 :=
    LoanOpStep.addPayment _ _ c3wPay "p1" 1 (mkPayment c3wPay "p1" 1) rfl (by decide)
      (fun _ => by decide) rfl
  have hreach : Relation.ReflTransGen (LoanOpStep "L1") ⟨[c3wLoan], []⟩ c3wSt1 :=
    Relation.ReflTransGen.single hstep
  exact ⟨⟨rfl, rfl, rfl, rfl, by decide, hreach⟩,
    C3_reconciliation_invariant "L1" 500000 c3wLoan c3wSt1 rfl rfl rfl rfl (by decide) hreach⟩

/-- Claim C2 counterexample: the CSV returned by the storage object that
`GET /api/transactions/csv` and the download route actually serve
(`storage.ts` → `DatabaseStorage` → `SupabaseStorage.getCSVContent`) does
NOT begin with the bank-statement header: it is the plain dump under
`Date,Type,Amount,Category,Description`, shown on the empty table and on a
one-transaction table. -/
theorem C2_counterexample :
    SupabaseStorage.getCSVContent [] = "Date,Type,Amount,Category,Description\n" ∧
    ¬ beginsWith (SupabaseStorage.getCSVContent [])
        "Date,Description,Withdrawals,Deposits,Balance" ∧
    ¬ beginsWith (SupabaseStorage.getCSVContent [⟨"t1", .expense, 5000, "food", "", 1, 5⟩])
        "Date,Description,Withdrawals,Deposits,Balance" := by
  refine ⟨rfl, by decide, by decide⟩

/-- Claim C2 as amended: the bank-statement contract holds for the CSV
produced by `LocalCSVStorage.generateCSV` (the identical
`VercelKVStorage.generateCSV` / `PostgresStorage.getCSVContent` logic), not
for the `getCSVContent` the routes serve.  For every transaction list:
the generated CSV is the header row `Date,Description,Withdrawals,Deposits,Balance`
followed by one `csvRowString` row per entry (description quoted by the row
template); the emitted order is a date-sorted permutation of the
transactions; row `i` is `mkEntry` of the `i`-th sorted transaction with the
running balance of the first `i+1` sorted transactions formatted by
`toFixed2` (with the category substituted when the description is blank, by
`mkEntry`); every row populates exactly one of Withdrawals/Deposits; and the
served `SupabaseStorage.getCSVContent` instead begins with
`Date,Type,Amount,Category,Description`. -/
theorem C2_bank_statement_csv_contract (transactions : List Transaction) :
    LocalCSVStorage.generateCSV transactions =
      LocalCSVStorage.csvHeader ++
        String.intercalate "\n"
          ((LocalCSVStorage.getBankStatementEntries transactions).map
            LocalCSVStorage.csvRowString) ∧
    beginsWith (LocalCSVStorage.generateCSV transactions) LocalCSVStorage.csvHeader ∧
    List.Sorted LocalCSVStorage.dateLe (LocalCSVStorage.sortTransactionsByDate transactions) ∧
    (LocalCSVStorage.sortTransactionsByDate transactions).Perm transactions ∧
    (∀ i : Nat,
      (LocalCSVStorage.getBankStatementEntries transactions).get? i =
        ((LocalCSVStorage.sortTransactionsByDate transactions).get? i).map
          (fun t => LocalCSVStorage.mkEntry t
            (signedSum ((LocalCSVStorage.sortTransactionsByDate transactions).take (i + 1))))) ∧
    (∀ e ∈ LocalCSVStorage.getBankStatementEntries transactions,
      (e.withdrawals = "" ∧ e.deposits ≠ "") ∨ (e.withdrawals ≠ "" ∧ e.deposits = "")) ∧
    beginsWith (SupabaseStorage.getCSVContent transactions)
      "Date,Type,Amount,Category,Description" := by
  refine ⟨rfl, beginsWith_append _ _, List.sorted_insertionSort LocalCSVStorage.dateLe _,
    List.perm_insertionSort LocalCSVStorage.dateLe transactions, ?_, ?_, ?_⟩
  · intro i
    rw [LocalCSVStorage.getBankStatementEntries,
      LocalCSVStorage.bankStatementRows_get? (LocalCSVStorage.sortTransactionsByDate transactions) 0 i]
    cases (LocalCSVStorage.sortTransactionsByDate transactions).get? i <;> simp
  · intro e he
    obtain ⟨t, b, -, rfl⟩ :=
      LocalCSVStorage.bankStatementRows_mem
        (LocalCSVStorage.sortTransactionsByDate transactions) 0 e he
    cases ht : t.ttype
    · left
      unfold LocalCSVStorage.mkEntry
      rw [ht]
      exact ⟨rfl, toFixed2_ne_empty t.amount⟩
    · right
      unfold LocalCSVStorage.mkEntry
      rw [ht]
      refine ⟨toFixed2_ne_empty t.amount, rfl⟩
  · show beginsWith ("Date,Type,Amount,Category,Description\n" ++ _)
      "Date,Type,Amount,Category,Description"
    rw [show ("Date,Type,Amount,Category,Description\n" : String) =
      "Date,Type,Amount,Category,Description" ++ "\n" from rfl, String.append_assoc]
    exact beginsWith_append _ _

/-- Claim C2 witness: the rows-populate-exactly-one conjunct of the contract
applied to a concrete one-row statement. -/
theorem C2_bank_statement_csv_contract_witness :
    (LocalCSVStorage.mkEntry ⟨"t1", .expense, 5000, "food", "", 1, 5⟩ (-5000) ∈
      LocalCSVStorage.getBankStatementEntries [⟨"t1", .expense, 5000, "food", "", 1, 5⟩]) ∧
    (((LocalCSVStorage.mkEntry ⟨"t1", .expense, 5000, "food", "", 1, 5⟩ (-5000)).withdrawals = "" ∧
      (LocalCSVStorage.mkEntry ⟨"t1", .expense, 5000, "food", "", 1, 5⟩ (-5000)).deposits ≠ "") ∨
    ((LocalCSVStorage.mkEntry ⟨"t1", .expense, 5000, "food", "", 1, 5⟩ (-5000)).withdrawals ≠ "" ∧
      (LocalCSVStorage.mkEntry ⟨"t1", .expense, 5000, "food", "", 1, 5⟩ (-5000)).deposits = "")) :=
  ⟨by decide,
   (C2_bank_statement_csv_contract [⟨"t1", .expense, 5000, "food", "", 1, 5⟩]).2.2.2.2.2.1
     (LocalCSVStorage.mkEntry ⟨"t1", .expense, 5000, "food", "", 1, 5⟩ (-5000)) (by decide)⟩

/-- Claim C9: for every non-empty list of transactions, the running balance
in the last row of the generated bank-statement CSV equals
`getCurrentBalance` (Σ income − Σ expense over the whole set) computed
independently, up to the `toFixed2` two-decimal formatting applied to the
CSV balance column. -/
theorem C9_last_row_balance_equals_current_balance (transactions : List Transaction)
    (hne : transactions ≠ []) :
    ∃ e, (LocalCSVStorage.getBankStatementEntries transactions).getLast? = some e ∧
      e.balance = toFixed2 (LocalCSVStorage.getCurrentBalance transactions) ∧
      LocalCSVStorage.getCurrentBalance transactions = signedSum transactions := by
  have hsne : LocalCSVStorage.sortTransactionsByDate transactions ≠ [] := by
    intro h
    apply hne
    have hperm := List.perm_insertionSort LocalCSVStorage.dateLe transactions
    rw [LocalCSVStorage.sortTransactionsByDate] at h
    rw [h] at hperm
    exact hperm.symm.eq_nil
  obtain ⟨e, he, hb⟩ :=
    LocalCSVStorage.bankStatementRows_getLast?
      (LocalCSVStorage.sortTransactionsByDate transactions) 0 hsne
  refine ⟨e, he, ?_, LocalCSVStorage.getCurrentBalance_eq_signedSum transactions⟩
  rw [hb, zero_add, LocalCSVStorage.signedSum_sortTransactionsByDate,
    LocalCSVStorage.getCurrentBalance_eq_signedSum]

/-- Claim C9 witness: the theorem applied to a concrete two-transaction
list: income 1000.00 and expense 50.00 give a final running balance of
950.00. -/
theorem C9_last_row_balance_equals_current_balance_witness :
    (([⟨"t1", .income, 100000, "salary", "", 3, 1⟩,
       ⟨"t2", .expense, 5000, "food", "", 1, 2⟩] : List Transaction) ≠ []) ∧
    (∃ e, (LocalCSVStorage.getBankStatementEntries
          [⟨"t1", .income, 100000, "salary", "", 3, 1⟩,
           ⟨"t2", .expense, 5000, "food", "", 1, 2⟩]).getLast? = some e ∧
      e.balance = toFixed2 (LocalCSVStorage.getCurrentBalance
          [⟨"t1", .income, 100000, "salary", "", 3, 1⟩,
           ⟨"t2", .expense, 5000, "food", "", 1, 2⟩]) ∧
      LocalCSVStorage.getCurrentBalance
          [⟨"t1", .income, 100000, "salary", "", 3, 1⟩,
           ⟨"t2", .expense, 5000, "food", "", 1, 2⟩] =
        signedSum
          [⟨"t1", .income, 100000, "salary", "", 3, 1⟩,
           ⟨"t2", .expense, 5000, "food", "", 1, 2⟩]) :=
  ⟨by decide,
   C9_last_row_balance_equals_current_balance
     [⟨"t1", .income, 100000, "salary", "", 3, 1⟩,
      ⟨"t2", .expense, 5000, "food", "", 1, 2⟩] (by decide)⟩

end ExpenseTracker
